import Mathlib

/-!
Shallow embedding of the go-surrealdb HTTP client (`main.go`, first revision,
lines 1-412) and verification of its specification claims.

Go `map[string]string` / `map[string]interface{}` values are modelled as
functions `String → Option _` built by successive updates (Go map assignment
overwrites; iteration order never matters below because all written keys are
distinct). Go `*string` / `*AuthConfig` pointers are modelled as `Option _`.
The stdlib collaborators (`encoding/json`, `net/url`, `encoding/base64`,
`net/http`) are modelled at the granularity the source observes: JSON bodies
as an inductive `Json` tree with Go's `Unmarshal` field semantics for the two
target structs (integer-valued numbers, exact-case keys), transport outcomes
as an inductive `HttpOutcome`.
-/

namespace GoSurreal

/-- Embeds Go struct `AuthVars` (main.go:32-37): credentials for
root/scope-based authentication. -/
structure AuthVars where
  Username : String
  Password : String
  Namespace : String
  Database : String
  deriving DecidableEq, Repr

/-- Embeds Go struct `AuthConfig` (main.go:24-29). -/
structure AuthConfig where
  Method : String
  Vars : AuthVars
  Token : String
  Scope : String
  deriving DecidableEq, Repr

/-- Embeds Go struct `Surreal` (main.go:15-21); the `*AuthConfig` pointer
field becomes `Option AuthConfig` (`none` = nil = unauthenticated). -/
structure Surreal where
  URL : String
  Version : String
  Namespace : String
  Database : String
  Auth : Option AuthConfig
  deriving DecidableEq, Repr

/-- Embeds Go struct `RequestError` (main.go:49-54). -/
structure RequestError where
  Code : Int
  Details : String
  Description : String
  Information : String
  deriving DecidableEq, Repr

/-- Embeds Go struct `AuthenticationResult` (main.go:78-82); the `*string`
token field becomes `Option String` (`none` = nil pointer). -/
structure AuthenticationResult where
  Code : Int
  Details : String
  Token : Option String
  deriving DecidableEq, Repr

/-- The generic error description string used by every locally synthesized
`RequestError` in main.go. -/
def genericDescription : String :=
  "There is a problem with your request. Refer to the documentation for further information."

/-- A Go `map[string]string` modelled as a partial function. -/
def Headers : Type := String → Option String

/-- Go map assignment `h[k] = v`: overwrites the binding at `k`. -/
def Headers.set (h : Headers) (k v : String) : Headers :=
  fun x => if x = k then some v else h x

/-- The empty Go map. -/
def Headers.empty : Headers := fun _ => none

/-- The standard base64 alphabet (`encoding/base64.StdEncoding`). -/
def base64Alphabet : List Char :=
  "ABCDEFGHIJKLMNOPQRSTUVWXYZabcdefghijklmnopqrstuvwxyz0123456789+/".toList

/-- One base64 digit. -/
def b64digit (n : Nat) : Char := base64Alphabet.getD n 'A'

/-- Encoding of a byte list by `encoding/base64.StdEncoding.EncodeToString`. -/
def base64EncodeBytes : List Nat → String
  | [] => ""
  | [a] =>
      String.mk [b64digit (a / 4), b64digit (a % 4 * 16)] ++ "=="
  | [a, b] =>
      String.mk [b64digit (a / 4), b64digit (a % 4 * 16 + b / 16),
        b64digit (b % 16 * 4)] ++ "="
  | a :: b :: c :: rest =>
      String.mk [b64digit (a / 4), b64digit (a % 4 * 16 + b / 16),
        b64digit (b % 16 * 4 + c / 64), b64digit (c % 64)] ++ base64EncodeBytes rest

/-- Model of `base64.StdEncoding.EncodeToString([]byte(s))`: encodes the
UTF-8 bytes of `s`. -/
def base64Encode (s : String) : String :=
  base64EncodeBytes (s.toUTF8.toList.map (·.toNat))

/-- Embeds Go `SurrealDB` (main.go:85-90): the constructor, normalizing any
unrecognized version string to ">= 2.x". -/
def SurrealDB (config : Surreal) : Surreal :=
  if config.Version = "" ∨ (config.Version ≠ ">= 2.x" ∧ config.Version ≠ "1.x <=") then
    { config with Version := ">= 2.x" }
  else config

/-- Embeds Go `AuthVars.ToMap` (main.go:405-412). -/
def AuthVars.ToMap (a : AuthVars) : Headers :=
  ((((Headers.empty.set "username" a.Username).set "password" a.Password).set
    "namespace" a.Namespace).set "database" a.Database)

/-- Embeds the header-construction portion of Go `Surreal.setRequest`
(main.go:93-129): the `headers` map as it stands when it is copied into the
HTTP request (main.go:151-153). The Go `for key, value := range ...ToMap()`
loop writes four distinct keys, so its arbitrary iteration order is
irrelevant and it is unrolled in a fixed order. -/
def Surreal.setRequestHeaders (db : Surreal) : Headers :=
  let h := (Headers.empty.set "Accept" "application/json").set
    "Content-Type" "application/json"
  let h :=
    if db.Version = "1.x <=" then
      (h.set "NS" db.Namespace).set "DB" db.Database
    else
      (h.set "surreal-ns" db.Namespace).set "surreal-db" db.Database
  match db.Auth with
  | none => h
  | some auth =>
    if auth.Method = "Root" then
      let h := h.set "Authorization"
        ("Basic " ++ base64Encode (auth.Vars.Username ++ ":" ++ auth.Vars.Password))
      let h := if auth.Vars.Namespace ≠ "" then h.set "NS" auth.Vars.Namespace else h
      if auth.Vars.Database ≠ "" then h.set "DB" auth.Vars.Database else h
    else if auth.Method = "Token" then
      h.set "Authorization" ("Bearer " ++ auth.Token)
    else if auth.Method = "Scope" then
      (h.set "SC" auth.Scope).set "username" auth.Vars.Username
        |>.set "password" auth.Vars.Password
        |>.set "namespace" auth.Vars.Namespace
        |>.set "database" auth.Vars.Database
    else h

/-- A Go `interface{}` value as it occurs in the `vars` maps of this client:
strings, integers, booleans, or the nil interface. -/
inductive GoVal where
  | null
  | str (s : String)
  | int (n : Int)
  | bool (b : Bool)
  deriving DecidableEq, Repr

/-- Go `fmt.Sprintf("%v", value)` on the modelled value kinds. -/
def GoVal.fmtV : GoVal → String
  | .null => "<nil>"
  | .str s => s
  | .int n => toString n
  | .bool b => if b then "true" else "false"

/-- Go's `shouldEscape` predicate of `net/url` specialized to query
components: a byte is kept verbatim iff it is alphanumeric or one of
`-_.~`. -/
def queryByteKept (b : Nat) : Bool :=
  (65 ≤ b && b ≤ 90) || (97 ≤ b && b ≤ 122) || (48 ≤ b && b ≤ 57) ||
    b == 45 || b == 95 || b == 46 || b == 126

/-- An uppercase hex digit. -/
def hexDigit (n : Nat) : Char :=
  "0123456789ABCDEF".toList.getD n '0'

/-- Model of `net/url.QueryEscape` on one byte: space becomes `+`, kept bytes pass
through, the rest become `%XX`. -/
def queryEscapeByte (b : Nat) : String :=
  if b = 32 then "+"
  else if queryByteKept b then String.mk [Char.ofNat b]
  else String.mk ['%', hexDigit (b / 16), hexDigit (b % 16)]

/-- Model of `net/url.QueryEscape` over the UTF-8 bytes of a string. -/
def queryEscape (s : String) : String :=
  String.join (s.toUTF8.toList.map (fun b => queryEscapeByte b.toNat))

/-- Model of `url.Values.Encode` on an already key-sorted list of key/value pairs:
`escape(k)=escape(v)` joined by `&` (main.go:213 receives the pairs sorted
because `Encode` sorts its keys). -/
def encodePairs : List (String × String) → String
  | [] => ""
  | [p] => queryEscape p.1 ++ "=" ++ queryEscape p.2
  | p :: q :: ps => queryEscape p.1 ++ "=" ++ queryEscape p.2 ++ "&" ++ encodePairs (q :: ps)

/-- Embeds the `queryVars` accumulation loop of Go `Surreal.Query`
(main.go:206-210): the non-nil entries of `vars`, stringified with
`fmt.Sprintf("%v", ·)`. The Go map's arbitrary iteration order is irrelevant
to the claims below because `url.Values.Encode` sorts by key and map keys are
distinct. -/
def queryPairs (vars : List (String × GoVal)) : List (String × String) :=
  vars.filterMap fun kv => if kv.2 ≠ GoVal.null then some (kv.1, kv.2.fmtV) else none

/-- Model of `url.Values.Encode` of the accumulated query variables: sort by key,
then encode (`net/url` sorts the map keys before joining). -/
def encodeQueryVars (vars : List (String × GoVal)) : String :=
  encodePairs ((queryPairs vars).mergeSort (fun a b => a.1 ≤ b.1))

/-- Embeds the URL construction of Go `Surreal.Query` (main.go:202-215):
`{URL}/sql`, plus `?<encoded vars>` when the encoding is non-empty. -/
def Surreal.queryURL (db : Surreal) (vars : List (String × GoVal)) : String :=
  let u := db.URL ++ "/sql"
  let encodedVars := encodeQueryVars vars
  if encodedVars ≠ "" then u ++ "?" ++ encodedVars else u

/-- A Go `map[string]interface{}` modelled as a partial function. -/
def Payload : Type := String → Option GoVal

/-- Go map assignment `p[k] = v`. -/
def Payload.set (p : Payload) (k : String) (v : GoVal) : Payload :=
  fun x => if x = k then some v else p x

/-- The empty payload (`make(map[string]interface{})`). -/
def Payload.empty : Payload := fun _ => none

/-- Embeds Go struct `SigninVars` (main.go:57-65): `*string` fields become
`Option String`; the optional extra-variables map becomes an optional
association list with (map-invariant) distinct keys. -/
structure SigninVars where
  NS : Option String
  DB : Option String
  AC : Option String
  SC : Option String
  Vars : Option (List (String × GoVal))
  User : Option String
  Pass : Option String
  deriving DecidableEq, Repr

/-- Embeds Go struct `SignupVars` (main.go:68-76), field-for-field identical
to `SigninVars`. -/
structure SignupVars where
  NS : Option String
  DB : Option String
  AC : Option String
  SC : Option String
  Vars : Option (List (String × GoVal))
  User : Option String
  Pass : Option String
  deriving DecidableEq, Repr

/-- The Go statement pattern `if vars.X != nil { payload[key] = *vars.X }`:
inserts the dereferenced string when the optional field is present. -/
def optStrSet (p : Payload) (key : String) (o : Option String) : Payload :=
  match o with
  | some s => p.set key (.str s)
  | none => p

/-- Embeds the payload-assembly block of Go `Surreal.Signin`
(main.go:251-279): conditional insertion of `ns`, `db`, `user`, `pass`, the
version-gated `ac`/`sc`, then the merge of the extra variables. The extra
map's arbitrary iteration order is modelled as a left fold over its
association list (its keys are distinct, being a Go map). -/
def Surreal.signinPayload (db : Surreal) (vars : SigninVars) : Payload :=
  let payload := Payload.empty
  let payload := optStrSet payload "ns" vars.NS
  let payload := optStrSet payload "db" vars.DB
  let payload := optStrSet payload "user" vars.User
  let payload := optStrSet payload "pass" vars.Pass
  let payload :=
    if db.Version = ">= 2.x" ∧ vars.AC ≠ none then
      payload.set "ac" (.str (vars.AC.getD ""))
    else if db.Version = "1.x <=" ∧ vars.SC ≠ none then
      payload.set "sc" (.str (vars.SC.getD ""))
    else payload
  match vars.Vars with
  | some extra => extra.foldl (fun p kv => p.set kv.1 kv.2) payload
  | none => payload

/-- Embeds the payload-assembly block of Go `Surreal.Signup`
(main.go:324-352), line-for-line identical to the `Signin` block. -/
def Surreal.signupPayload (db : Surreal) (vars : SignupVars) : Payload :=
  let payload := Payload.empty
  let payload := optStrSet payload "ns" vars.NS
  let payload := optStrSet payload "db" vars.DB
  let payload := optStrSet payload "user" vars.User
  let payload := optStrSet payload "pass" vars.Pass
  let payload :=
    if db.Version = ">= 2.x" ∧ vars.AC ≠ none then
      payload.set "ac" (.str (vars.AC.getD ""))
    else if db.Version = "1.x <=" ∧ vars.SC ≠ none then
      payload.set "sc" (.str (vars.SC.getD ""))
    else payload
  match vars.Vars with
  | some extra => extra.foldl (fun p kv => p.set kv.1 kv.2) payload
  | none => payload

/-- A JSON document, at the granularity `encoding/json` is used by this
client (numbers restricted to integers; the client never decodes fractional
values into its integer-typed fields). -/
inductive Json where
  | null
  | bool (b : Bool)
  | num (n : Int)
  | str (s : String)
  | arr (elems : List Json)
  | obj (fields : List (String × Json))

/-- A response body as handed to `json.Unmarshal`: either bytes that are not
valid JSON (with the parser's error message) or a parsed JSON document. -/
inductive BodyParse where
  | malformed (msg : String)
  | value (j : Json)

/-- Model of `json.Unmarshal` processing of one JSON object member into a Go
`RequestError` struct: known tags set the matching field (`null` members
leave it untouched, type mismatches error), unknown tags are ignored. -/
def reqErrSetField (r : RequestError) (k : String) (j : Json) : Except String RequestError :=
  if k = "code" then
    match j with
    | .num n => .ok { r with Code := n }
    | .null => .ok r
    | _ => .error "json: cannot unmarshal value into Go struct field RequestError.code of type int"
  else if k = "details" then
    match j with
    | .str s => .ok { r with Details := s }
    | .null => .ok r
    | _ => .error "json: cannot unmarshal value into Go struct field RequestError.details of type string"
  else if k = "description" then
    match j with
    | .str s => .ok { r with Description := s }
    | .null => .ok r
    | _ => .error "json: cannot unmarshal value into Go struct field RequestError.description of type string"
  else if k = "information" then
    match j with
    | .str s => .ok { r with Information := s }
    | .null => .ok r
    | _ => .error "json: cannot unmarshal value into Go struct field RequestError.information of type string"
  else .ok r

/-- Folds `reqErrSetField` over the members of a JSON object in document
order (later duplicate keys overwrite earlier ones, as in `encoding/json`). -/
def reqErrSetFields : RequestError → List (String × Json) → Except String RequestError
  | r, [] => .ok r
  | r, (k, j) :: rest =>
    match reqErrSetField r k j with
    | .ok r2 => reqErrSetFields r2 rest
    | .error msg => .error msg

/-- Model of `json.Unmarshal(body, &result)` for `var result RequestError`
(main.go:183-184): the body must be valid JSON whose top level is an object;
absent fields keep their zero values. -/
def unmarshalRequestError : BodyParse → Except String RequestError
  | .malformed msg => .error msg
  | .value (.obj fields) =>
      reqErrSetFields { Code := 0, Details := "", Description := "", Information := "" } fields
  | .value _ => .error "json: cannot unmarshal value into Go value of type RequestError"

/-- Model of `json.Unmarshal` processing of one JSON object member into a Go
`AuthenticationResult` struct (`token` is a `*string`: `null` stores nil). -/
def authResSetField (r : AuthenticationResult) (k : String) (j : Json) :
    Except String AuthenticationResult :=
  if k = "code" then
    match j with
    | .num n => .ok { r with Code := n }
    | .null => .ok r
    | _ => .error "json: cannot unmarshal value into Go struct field AuthenticationResult.code of type int"
  else if k = "details" then
    match j with
    | .str s => .ok { r with Details := s }
    | .null => .ok r
    | _ => .error "json: cannot unmarshal value into Go struct field AuthenticationResult.details of type string"
  else if k = "token" then
    match j with
    | .str s => .ok { r with Token := some s }
    | .null => .ok { r with Token := none }
    | _ => .error "json: cannot unmarshal value into Go struct field AuthenticationResult.token of type *string"
  else .ok r

/-- Folds `authResSetField` over the members of a JSON object in document
order. -/
def authResSetFields : AuthenticationResult → List (String × Json) →
    Except String AuthenticationResult
  | r, [] => .ok r
  | r, (k, j) :: rest =>
    match authResSetField r k j with
    | .ok r2 => authResSetFields r2 rest
    | .error msg => .error msg

/-- Model of `json.Unmarshal(res, &result)` for `var result AuthenticationResult`
(main.go:298-299 and main.go:371-372). -/
def unmarshalAuthResult : BodyParse → Except String AuthenticationResult
  | .malformed msg => .error msg
  | .value (.obj fields) =>
      authResSetFields { Code := 0, Details := "", Token := none } fields
  | .value _ => .error "json: cannot unmarshal value into Go value of type AuthenticationResult"

/-- One completed HTTP exchange as `Surreal.processRequest` observes it:
either `client.Do` failed (transport error), or reading the body failed, or a
response with a status code and a body arrived. -/
inductive HttpOutcome where
  | transportError (msg : String)
  | readError (msg : String)
  | response (status : Nat) (body : BodyParse)

/-- Embeds Go `Surreal.processRequest` (main.go:159-198): transport and
body-read failures become synthesized 500 errors; a non-200 status decodes
the body as a `RequestError` (returned as-is on success, else a synthesized
500 carrying the decode failure message); a 200 status hands the body back
to the caller. -/
def processRequest : HttpOutcome → Except RequestError BodyParse
  | .transportError msg =>
    .error { Code := 500
             Details := "Request problems detected"
             Description := genericDescription
             Information := msg }
  | .readError msg =>
    .error { Code := 500
             Details := "Failed to read response body"
             Description := "There was an error reading the response body."
             Information := msg }
  | .response status body =>
    if status ≠ 200 then
      match unmarshalRequestError body with
      | .error msg =>
        .error { Code := 500
                 Details := "Request problems detected"
                 Description := genericDescription
                 Information := msg }
      | .ok result => .error result
    else .ok body

/-- The outcome of a call that the source either completes with a value, an
error, or aborts by panicking. -/
inductive CallOutcome (α : Type) where
  | ok (a : α)
  | err (e : RequestError)
  | panic
  deriving DecidableEq, Repr

/-- Embeds the response-handling tail of Go `Surreal.Signin`
(main.go:293-318): `processRequest`, decode as `AuthenticationResult`,
reject a non-200 embedded code with a synthesized 500 carrying the result's
`details`, then `return *result.Token` — which dereferences a nil pointer
(modelled as `.panic`) when the decoded result carries no token. -/
def Surreal.signinRespond (outcome : HttpOutcome) : CallOutcome String :=
  match processRequest outcome with
  | .error e => .err e
  | .ok body =>
    match unmarshalAuthResult body with
    | .error msg =>
      .err { Code := 500
             Details := "Request problems detected"
             Description := genericDescription
             Information := msg }
    | .ok result =>
      if result.Code ≠ 200 then
        .err { Code := 500
               Details := "Request problems detected"
               Description := genericDescription
               Information := result.Details }
      else
        match result.Token with
        | some token => .ok token
        | none => .panic

/-- Embeds the response-handling tail of Go `Surreal.Signup`
(main.go:366-391), line-for-line identical to the `Signin` tail. -/
def Surreal.signupRespond (outcome : HttpOutcome) : CallOutcome String :=
  match processRequest outcome with
  | .error e => .err e
  | .ok body =>
    match unmarshalAuthResult body with
    | .error msg =>
      .err { Code := 500
             Details := "Request problems detected"
             Description := genericDescription
             Information := msg }
    | .ok result =>
      if result.Code ≠ 200 then
        .err { Code := 500
               Details := "Request problems detected"
               Description := genericDescription
               Information := result.Details }
      else
        match result.Token with
        | some token => .ok token
        | none => .panic

/-- Embeds Go `Surreal.Authenticate` (main.go:395-397): the mutation of the
receiver, as a pure state transformer (it touches no other field and
performs no I/O). -/
def Surreal.Authenticate (db : Surreal) (auth : Option AuthConfig) : Surreal :=
  { db with Auth := auth }

/-- Embeds Go `Surreal.Invalidate` (main.go:400-402): clears the stored auth
configuration, as a pure state transformer. -/
def Surreal.Invalidate (db : Surreal) : Surreal :=
  { db with Auth := none }

theorem Headers.set_self (h : Headers) (k v : String) : h.set k v k = some v := by
  simp [Headers.set]

theorem Headers.set_other (h : Headers) (k v x : String) (hx : x ≠ k) :
    h.set k v x = h x := by
  simp [Headers.set, hx]

theorem Payload.set_hit (p : Payload) (k : String) (v : GoVal) : p.set k v k = some v := by
  simp [Payload.set]

theorem Payload.set_miss (p : Payload) (k : String) (v : GoVal) (x : String)
    (hx : x ≠ k) : p.set k v x = p x := by
  simp [Payload.set, hx]

/-! ## Claim theorems -/

/-- C8: `Invalidate` is idempotent — after one call the stored auth
configuration is absent (`none`), after a second call it is absent as well,
and the second call changes nothing; the operation's Go signature returns no
error value at all (its embedding is a total state transformer). -/
theorem invalidate_idempotent (db : Surreal) :
    db.Invalidate.Auth = none ∧ db.Invalidate.Invalidate.Auth = none ∧
      db.Invalidate.Invalidate = db.Invalidate := by
  simp [Surreal.Invalidate]

/-- C9: `Authenticate` replaces the stored auth configuration with its
argument unconditionally (no validation, no merging), and both `Authenticate`
and `Invalidate` leave `URL`, `Version`, `Namespace` and `Database`
unchanged; both are pure state transformers in the embedding, so they perform
no network call. -/
theorem authenticate_replaces_unconditionally (db : Surreal) (auth : Option AuthConfig) :
    (db.Authenticate auth).Auth = auth ∧
    (db.Authenticate auth).URL = db.URL ∧
    (db.Authenticate auth).Version = db.Version ∧
    (db.Authenticate auth).Namespace = db.Namespace ∧
    (db.Authenticate auth).Database = db.Database ∧
    db.Invalidate.URL = db.URL ∧
    db.Invalidate.Version = db.Version ∧
    db.Invalidate.Namespace = db.Namespace ∧
    db.Invalidate.Database = db.Database := by
  simp [Surreal.Authenticate, Surreal.Invalidate]

/-- C10: with an active Scope-variant auth state, every built request carries
the five headers `SC`, `username`, `password`, `namespace`, `database` taken
from the scope configuration — for all field values, including empty strings
(empty credential fields are not omitted) — and the Scope branch adds no
`Authorization` header. -/
theorem scope_auth_headers (url ver ns dbName tok sc : String) (vars : AuthVars) :
    Surreal.setRequestHeaders ⟨url, ver, ns, dbName, some ⟨"Scope", vars, tok, sc⟩⟩ "SC" = some sc ∧
    Surreal.setRequestHeaders ⟨url, ver, ns, dbName, some ⟨"Scope", vars, tok, sc⟩⟩ "username" = some vars.Username ∧
    Surreal.setRequestHeaders ⟨url, ver, ns, dbName, some ⟨"Scope", vars, tok, sc⟩⟩ "password" = some vars.Password ∧
    Surreal.setRequestHeaders ⟨url, ver, ns, dbName, some ⟨"Scope", vars, tok, sc⟩⟩ "namespace" = some vars.Namespace ∧
    Surreal.setRequestHeaders ⟨url, ver, ns, dbName, some ⟨"Scope", vars, tok, sc⟩⟩ "database" = some vars.Database ∧
    Surreal.setRequestHeaders ⟨url, ver, ns, dbName, some ⟨"Scope", vars, tok, sc⟩⟩ "Authorization" = none := by
  refine ⟨?_, ?_, ?_, ?_, ?_, ?_⟩ <;>
    · unfold Surreal.setRequestHeaders
      split <;> simp [Headers.set, Headers.empty]

/-- C2: the code aborts with an uncatchable fault on a well-formed success
response that lacks a token: a Signin exchange that returns HTTP 200 with
body `{"code":200,"details":"Authenticated"}` decodes successfully, passes
the `result.Code == 200` check, and then `return *result.Token`
(main.go:318) dereferences the nil token pointer — modelled as `.panic`,
contradicting the claim that every operation returns a value or exactly one
`RequestError`. -/
theorem signin_missing_token_panics :
    Surreal.signinRespond
      (.response 200 (.value (.obj [("code", .num 200), ("details", .str "Authenticated")])))
      = .panic := by
  rfl

/-- C3: for a completed exchange with status ≠ 200, `processRequest` returns
the body's decoded `RequestError` unmodified when decoding succeeds (its
`code` field is whatever the body said, independent of the HTTP status), and
otherwise a synthesized `RequestError` with code 500 whose `information`
field is the decode failure message. -/
theorem non200_error_normalization (status : Nat) (body : BodyParse) (hs : status ≠ 200) :
    (∀ r : RequestError, unmarshalRequestError body = .ok r →
      processRequest (.response status body) = .error r) ∧
    (∀ msg : String, unmarshalRequestError body = .error msg →
      processRequest (.response status body) =
        .error ⟨500, "Request problems detected", genericDescription, msg⟩) := by
  constructor <;> intro x hx <;> simp [processRequest, hs, hx]

/-- Witness for C3: the spec's scenario — status 403 with body
`{"code":403,"details":"Auth failed",...}` comes back as exactly that
decoded `RequestError`. -/
theorem non200_error_normalization_witness :
    processRequest (.response 403 (.value (.obj
      [("code", .num 403), ("details", .str "Auth failed"),
       ("description", .str "Forbidden"), ("information", .str "token expired")])))
      = .error ⟨403, "Auth failed", "Forbidden", "token expired"⟩ :=
  (non200_error_normalization 403 _ (by decide)).1
    ⟨403, "Auth failed", "Forbidden", "token expired"⟩ (by rfl)

/-- C7 counterexample: a Signin response with HTTP status 200 whose body
decodes to an `AuthenticationResult` with `Code = 200` but a null token does
not make the operation return the token string — the code dereferences the
nil token pointer instead (modelled as `.panic`). -/
theorem auth_code_check_counterexample :
    unmarshalAuthResult (.value (.obj [("code", .num 200), ("details", .str "OK"), ("token", .null)]))
      = .ok ⟨200, "OK", none⟩ ∧
    Surreal.signinRespond (.response 200 (.value (.obj
      [("code", .num 200), ("details", .str "OK"), ("token", .null)])))
      = .panic :=
  ⟨rfl, rfl⟩

/-- C7 as amended: for a Signin or Signup exchange with HTTP status 200 whose
body decodes to an `AuthenticationResult`, a `Code ≠ 200` yields a
`RequestError` with code 500 carrying the result's `details` as
`information`; with `Code = 200`, when the decoded result carries a token the
operation returns that token string (when the token is absent the code
faults, see the counterexample). -/
theorem auth_code_check (body : BodyParse) (result : AuthenticationResult)
    (hdec : unmarshalAuthResult body = .ok result) :
    (result.Code ≠ 200 →
      Surreal.signinRespond (.response 200 body) =
        .err ⟨500, "Request problems detected", genericDescription, result.Details⟩ ∧
      Surreal.signupRespond (.response 200 body) =
        .err ⟨500, "Request problems detected", genericDescription, result.Details⟩) ∧
    (result.Code = 200 → ∀ tok : String, result.Token = some tok →
      Surreal.signinRespond (.response 200 body) = .ok tok ∧
      Surreal.signupRespond (.response 200 body) = .ok tok) := by
  unfold Surreal.signinRespond Surreal.signupRespond
  constructor
  · intro h
    simp [processRequest, hdec, h]
  · intro h tok htok
    simp [processRequest, hdec, h, htok]

/-- Witness for C7 (amended): the spec's scenario — an embedded code 403 with
details `Auth failed` yields a 500 `RequestError` whose `information` is
`Auth failed`. -/
theorem auth_code_check_witness :
    Surreal.signinRespond (.response 200 (.value (.obj
      [("code", .num 403), ("details", .str "Auth failed")])))
      = .err ⟨500, "Request problems detected", genericDescription, "Auth failed"⟩ :=
  ((auth_code_check _ ⟨403, "Auth failed", none⟩ (by rfl)).1 (by decide)).1

/-- C1 counterexample: with the current protocol version (">= 2.x") and an
active Root auth whose namespace/database overrides are non-empty, the
version's own namespace/database headers `surreal-ns`/`surreal-db` still
carry the client-level values, not the overrides — the overrides land in
separately named `NS`/`DB` headers instead. -/
theorem root_override_counterexample :
    Surreal.setRequestHeaders
      ⟨"http://localhost:8000", ">= 2.x", "clientNS", "clientDB",
        some ⟨"Root", ⟨"root", "secret", "overrideNS", "overrideDB"⟩, "", ""⟩⟩ "surreal-ns"
      = some "clientNS" ∧
    Surreal.setRequestHeaders
      ⟨"http://localhost:8000", ">= 2.x", "clientNS", "clientDB",
        some ⟨"Root", ⟨"root", "secret", "overrideNS", "overrideDB"⟩, "", ""⟩⟩ "surreal-db"
      = some "clientDB" ∧
    Surreal.setRequestHeaders
      ⟨"http://localhost:8000", ">= 2.x", "clientNS", "clientDB",
        some ⟨"Root", ⟨"root", "secret", "overrideNS", "overrideDB"⟩, "", ""⟩⟩ "surreal-ns"
      ≠ some "overrideNS" ∧
    Surreal.setRequestHeaders
      ⟨"http://localhost:8000", ">= 2.x", "clientNS", "clientDB",
        some ⟨"Root", ⟨"root", "secret", "overrideNS", "overrideDB"⟩, "", ""⟩⟩ "surreal-db"
      ≠ some "overrideDB" := by
  refine ⟨rfl, rfl, by decide, by decide⟩

/-- C1 as amended: with an active Root auth whose overrides are non-empty,
the headers literally named `NS`/`DB` carry the override values under both
protocol versions — under the legacy version these are the version's
namespace/database headers, so there the override replaces the client-level
scope; under the current version the override lands in extra `NS`/`DB`
headers while the version's `surreal-ns`/`surreal-db` headers keep the
client-level values. -/
theorem root_override_headers (url ns dbName u p ans adb tok sc : String)
    (hans : ans ≠ "") (hadb : adb ≠ "") :
    Surreal.setRequestHeaders
      ⟨url, "1.x <=", ns, dbName, some ⟨"Root", ⟨u, p, ans, adb⟩, tok, sc⟩⟩ "NS" = some ans ∧
    Surreal.setRequestHeaders
      ⟨url, "1.x <=", ns, dbName, some ⟨"Root", ⟨u, p, ans, adb⟩, tok, sc⟩⟩ "DB" = some adb ∧
    Surreal.setRequestHeaders
      ⟨url, ">= 2.x", ns, dbName, some ⟨"Root", ⟨u, p, ans, adb⟩, tok, sc⟩⟩ "NS" = some ans ∧
    Surreal.setRequestHeaders
      ⟨url, ">= 2.x", ns, dbName, some ⟨"Root", ⟨u, p, ans, adb⟩, tok, sc⟩⟩ "DB" = some adb ∧
    Surreal.setRequestHeaders
      ⟨url, ">= 2.x", ns, dbName, some ⟨"Root", ⟨u, p, ans, adb⟩, tok, sc⟩⟩ "surreal-ns" = some ns ∧
    Surreal.setRequestHeaders
      ⟨url, ">= 2.x", ns, dbName, some ⟨"Root", ⟨u, p, ans, adb⟩, tok, sc⟩⟩ "surreal-db" = some dbName := by
  refine ⟨?_, ?_, ?_, ?_, ?_, ?_⟩ <;>
    · unfold Surreal.setRequestHeaders
      simp [Headers.set, Headers.empty, hans, hadb]

/-- Witness for C1 (amended): concrete override values reach the `NS`/`DB`
headers under both versions. -/
theorem root_override_headers_witness :
    Surreal.setRequestHeaders
      ⟨"u", "1.x <=", "cns", "cdb", some ⟨"Root", ⟨"r", "s", "ans", "adb"⟩, "", ""⟩⟩ "NS"
      = some "ans" ∧
    Surreal.setRequestHeaders
      ⟨"u", ">= 2.x", "cns", "cdb", some ⟨"Root", ⟨"r", "s", "ans", "adb"⟩, "", ""⟩⟩ "NS"
      = some "ans" :=
  ⟨(root_override_headers "u" "cns" "cdb" "r" "s" "ans" "adb" "" "" (by decide) (by decide)).1,
   (root_override_headers "u" "cns" "cdb" "r" "s" "ans" "adb" "" "" (by decide) (by decide)).2.2.1⟩

theorem SurrealDB_preserves_fields (c : Surreal) :
    (SurrealDB c).URL = c.URL ∧ (SurrealDB c).Namespace = c.Namespace ∧
    (SurrealDB c).Database = c.Database ∧ (SurrealDB c).Auth = c.Auth := by
  unfold SurrealDB
  split <;> simp

theorem SurrealDB_version (c : Surreal) :
    (c.Version = "1.x <=" ∧ (SurrealDB c).Version = "1.x <=") ∨
    (c.Version ≠ "1.x <=" ∧ (SurrealDB c).Version = ">= 2.x") := by
  unfold SurrealDB
  split_ifs with h
  · right
    refine ⟨?_, rfl⟩
    rcases h with h | ⟨_, h⟩
    · rw [h]; decide
    · exact h
  · push_neg at h
    by_cases h2 : c.Version = ">= 2.x"
    · right
      refine ⟨?_, ?_⟩ <;> simp [h2]
    · left
      exact ⟨h.2 h2, h.2 h2⟩

/-- Evaluation of the four namespace/database header names on a client whose
auth is not a Root configuration with non-empty overrides: the legacy version
emits exactly `NS`/`DB` and the others emit exactly
`surreal-ns`/`surreal-db`, with client-level values. -/
theorem setRequestHeaders_version_naming (db : Surreal)
    (hRoot : ∀ a, db.Auth = some a → a.Method = "Root" →
      a.Vars.Namespace = "" ∧ a.Vars.Database = "") :
    (db.Version = "1.x <=" →
      db.setRequestHeaders "NS" = some db.Namespace ∧
      db.setRequestHeaders "DB" = some db.Database ∧
      db.setRequestHeaders "surreal-ns" = none ∧
      db.setRequestHeaders "surreal-db" = none) ∧
    (db.Version ≠ "1.x <=" →
      db.setRequestHeaders "surreal-ns" = some db.Namespace ∧
      db.setRequestHeaders "surreal-db" = some db.Database ∧
      db.setRequestHeaders "NS" = none ∧
      db.setRequestHeaders "DB" = none) := by
  unfold Surreal.setRequestHeaders
  rcases hA : db.Auth with _ | a
  · constructor <;> intro hv <;> simp [hA, hv, Headers.set, Headers.empty]
  · by_cases hm : a.Method = "Root"
    · obtain ⟨hans, hadb⟩ := hRoot a hA hm
      constructor <;> intro hv <;>
        simp [hA, hm, hv, hans, hadb, Headers.set, Headers.empty]
    · constructor <;> intro hv <;>
        by_cases ht : a.Method = "Token" <;>
        by_cases hs : a.Method = "Scope" <;>
        simp [hA, hm, ht, hs, hv, Headers.set, Headers.empty]

/-- C5 counterexample: a client configuration with the current protocol
version but a Root auth carrying non-empty overrides emits headers named
`NS`/`DB` although its version is not the legacy one — refuting "emits NS
and DB exactly when the protocol version equals legacy" as a statement about
every client configuration. -/
theorem version_headers_counterexample :
    (SurrealDB ⟨"u", ">= 2.x", "ns0", "db0",
        some ⟨"Root", ⟨"usr", "pw", "ovNS", "ovDB"⟩, "", ""⟩⟩).Version ≠ "1.x <=" ∧
    Surreal.setRequestHeaders
      (SurrealDB ⟨"u", ">= 2.x", "ns0", "db0",
        some ⟨"Root", ⟨"usr", "pw", "ovNS", "ovDB"⟩, "", ""⟩⟩) "NS" = some "ovNS" ∧
    Surreal.setRequestHeaders
      (SurrealDB ⟨"u", ">= 2.x", "ns0", "db0",
        some ⟨"Root", ⟨"usr", "pw", "ovNS", "ovDB"⟩, "", ""⟩⟩) "DB" = some "ovDB" := by
  refine ⟨by decide, rfl, rfl⟩

/-- C5 as amended: for every client configuration whose auth is not a Root
configuration with a non-empty namespace/database override, the constructed
client (the constructor normalizes unset/unrecognized versions to
">= 2.x") emits headers named `NS`/`DB` exactly when the configured version
is the legacy "1.x <=", and headers named `surreal-ns`/`surreal-db` for
every other version value, with the values taken from the client-level
namespace and database. -/
theorem version_header_naming (c : Surreal)
    (hRoot : ∀ a, c.Auth = some a → a.Method = "Root" →
      a.Vars.Namespace = "" ∧ a.Vars.Database = "") :
    (c.Version = "1.x <=" →
      (SurrealDB c).setRequestHeaders "NS" = some c.Namespace ∧
      (SurrealDB c).setRequestHeaders "DB" = some c.Database ∧
      (SurrealDB c).setRequestHeaders "surreal-ns" = none ∧
      (SurrealDB c).setRequestHeaders "surreal-db" = none) ∧
    (c.Version ≠ "1.x <=" →
      (SurrealDB c).setRequestHeaders "surreal-ns" = some c.Namespace ∧
      (SurrealDB c).setRequestHeaders "surreal-db" = some c.Database ∧
      (SurrealDB c).setRequestHeaders "NS" = none ∧
      (SurrealDB c).setRequestHeaders "DB" = none) := by
  obtain ⟨hu, hn, hd, ha⟩ := SurrealDB_preserves_fields c
  have hRoot2 : ∀ a, (SurrealDB c).Auth = some a → a.Method = "Root" →
      a.Vars.Namespace = "" ∧ a.Vars.Database = "" := by
    intro a haa hm
    exact hRoot a (ha ▸ haa) hm
  obtain ⟨h1, h2⟩ := setRequestHeaders_version_naming (SurrealDB c) hRoot2
  rcases SurrealDB_version c with ⟨hcv, hv⟩ | ⟨hcv, hv⟩
  · constructor
    · intro _
      have := h1 hv
      rw [hn, hd] at this
      exact this
    · intro hcontra
      exact absurd hcv hcontra
  · constructor
    · intro hcontra
      exact absurd hcontra hcv
    · intro _
      have : (SurrealDB c).Version ≠ "1.x <=" := by rw [hv]; decide
      have h := h2 this
      rw [hn, hd] at h
      exact h

/-- Witness for C5 (amended): an unauthenticated configuration with an
unrecognized version string is normalized to the current protocol and emits
`surreal-ns`/`surreal-db` with the client-level values. -/
theorem version_header_naming_witness :
    ("bogus" : String) ≠ "1.x <=" ∧
    (SurrealDB ⟨"u", "bogus", "myns", "mydb", none⟩).setRequestHeaders "surreal-ns" = some "myns" ∧
    (SurrealDB ⟨"u", "bogus", "myns", "mydb", none⟩).setRequestHeaders "NS" = none :=
  ⟨by decide,
   ((version_header_naming ⟨"u", "bogus", "myns", "mydb", none⟩
      (by intro a h hm; cases h)).2 (by decide)).1,
   ((version_header_naming ⟨"u", "bogus", "myns", "mydb", none⟩
      (by intro a h hm; cases h)).2 (by decide)).2.2.1⟩

theorem foldl_set_not_mem (extra : List (String × GoVal)) (base : Payload) (k : String)
    (hk : k ∉ extra.map Prod.fst) :
    extra.foldl (fun p kv => p.set kv.1 kv.2) base k = base k := by
  induction extra generalizing base with
  | nil => rfl
  | cons hd tl ih =>
    simp only [List.map_cons, List.mem_cons] at hk
    push_neg at hk
    rw [List.foldl_cons, ih (base.set hd.1 hd.2) hk.2, Payload.set_miss _ _ _ _ hk.1]

theorem foldl_set_mem (extra : List (String × GoVal)) (base : Payload)
    (hnd : (extra.map Prod.fst).Nodup) (k : String) (v : GoVal)
    (hm : (k, v) ∈ extra) :
    extra.foldl (fun p kv => p.set kv.1 kv.2) base k = some v := by
  induction extra generalizing base with
  | nil => cases hm
  | cons hd tl ih =>
    simp only [List.map_cons, List.nodup_cons] at hnd
    rcases List.mem_cons.mp hm with heq | htl
    · subst heq
      rw [List.foldl_cons, foldl_set_not_mem tl _ k hnd.1, Payload.set_hit]
    · rw [List.foldl_cons]
      exact ih (base.set hd.1 hd.2) hnd.2 htl

theorem optStrSet_other (p : Payload) (key : String) (o : Option String) (k : String)
    (h : k ≠ key) : optStrSet p key o k = p k := by
  cases o with
  | none => rfl
  | some s => exact Payload.set_miss _ _ _ _ h

theorem optStrSet_self (p : Payload) (key : String) (o : Option String) :
    optStrSet p key o key = (o.map GoVal.str).or (p key) := by
  cases o with
  | none => rfl
  | some s => simp [optStrSet, Payload.set_hit]

theorem map_str_of_ne_none {o : Option String} (h : o ≠ none) :
    o.map GoVal.str = some (.str (o.getD "")) := by
  cases o with
  | none => exact absurd rfl h
  | some s => rfl

/-- Per-key evaluation of the Signin payload before the extra-variables
merge. -/
theorem signinPayload_base_eval (db : Surreal) (NS DB AC SC U P : Option String) :
    Surreal.signinPayload db ⟨NS, DB, AC, SC, none, U, P⟩ "ns" = NS.map GoVal.str ∧
    Surreal.signinPayload db ⟨NS, DB, AC, SC, none, U, P⟩ "db" = DB.map GoVal.str ∧
    Surreal.signinPayload db ⟨NS, DB, AC, SC, none, U, P⟩ "user" = U.map GoVal.str ∧
    Surreal.signinPayload db ⟨NS, DB, AC, SC, none, U, P⟩ "pass" = P.map GoVal.str ∧
    Surreal.signinPayload db ⟨NS, DB, AC, SC, none, U, P⟩ "ac" =
      (if db.Version = ">= 2.x" then AC.map GoVal.str else none) ∧
    Surreal.signinPayload db ⟨NS, DB, AC, SC, none, U, P⟩ "sc" =
      (if db.Version = "1.x <=" then SC.map GoVal.str else none) ∧
    (∀ k, k ≠ "ns" → k ≠ "db" → k ≠ "user" → k ≠ "pass" → k ≠ "ac" → k ≠ "sc" →
      Surreal.signinPayload db ⟨NS, DB, AC, SC, none, U, P⟩ k = none) := by
  unfold Surreal.signinPayload
  dsimp only
  refine ⟨?_, ?_, ?_, ?_, ?_, ?_, ?_⟩
  · split_ifs <;>
      simp [Payload.set_miss, optStrSet_other, optStrSet_self, Payload.empty]
  · split_ifs <;>
      simp [Payload.set_miss, optStrSet_other, optStrSet_self, Payload.empty]
  · split_ifs <;>
      simp [Payload.set_miss, optStrSet_other, optStrSet_self, Payload.empty]
  · split_ifs <;>
      simp [Payload.set_miss, optStrSet_other, optStrSet_self, Payload.empty]
  · by_cases hv : db.Version = ">= 2.x"
    · cases AC with
      | none => simp [hv, optStrSet_other, Payload.set_miss, Payload.empty]
      | some a => simp [hv, Payload.set_hit]
    · by_cases hl : db.Version = "1.x <="
      · cases SC with
        | none => simp [hv, hl, optStrSet_other, Payload.set_miss, Payload.empty]
        | some s => simp [hv, hl, optStrSet_other, Payload.set_miss, Payload.empty]
      · simp [hv, hl, optStrSet_other, Payload.set_miss, Payload.empty]
  · by_cases hl : db.Version = "1.x <="
    · cases SC with
      | none => simp [hl, optStrSet_other, Payload.set_miss, Payload.empty]
      | some s => simp [hl, Payload.set_hit]
    · by_cases hv : db.Version = ">= 2.x"
      · cases AC with
        | none => simp [hl, hv, optStrSet_other, Payload.set_miss, Payload.empty]
        | some a => simp [hl, hv, optStrSet_other, Payload.set_miss, Payload.empty]
      · simp [hl, hv, optStrSet_other, Payload.set_miss, Payload.empty]
  · intro k h1 h2 h3 h4 h5 h6
    split_ifs <;>
      simp [Payload.set_miss, optStrSet_other, Payload.empty, h1, h2, h3, h4, h5, h6]

/-- C4: the Signin/Signup payload carries `ns`, `db`, `user`, `pass` exactly
for the non-nil optional fields, `ac` only under the current protocol with a
non-nil `AC`, `sc` only under the legacy protocol with a non-nil `SC`
(never both), and nothing else before the extra variables; the extra
variables are merged last and overwrite on key collision; `Signup` assembles
its payload identically to `Signin`; and a `SigninVars` with only `user` and
`pass` set yields a payload whose keys are exactly `user` and `pass`. -/
theorem signin_payload_assembly (db : Surreal) (vars : SigninVars) :
    (vars.Vars = none →
      db.signinPayload vars "ns" = vars.NS.map GoVal.str ∧
      db.signinPayload vars "db" = vars.DB.map GoVal.str ∧
      db.signinPayload vars "user" = vars.User.map GoVal.str ∧
      db.signinPayload vars "pass" = vars.Pass.map GoVal.str ∧
      db.signinPayload vars "ac" =
        (if db.Version = ">= 2.x" then vars.AC.map GoVal.str else none) ∧
      db.signinPayload vars "sc" =
        (if db.Version = "1.x <=" then vars.SC.map GoVal.str else none) ∧
      ¬(db.signinPayload vars "ac" ≠ none ∧ db.signinPayload vars "sc" ≠ none) ∧
      (∀ k, k ∉ (["ns", "db", "user", "pass", "ac", "sc"] : List String) →
        db.signinPayload vars k = none)) ∧
    (∀ extra, vars.Vars = some extra →
      (∀ k v, (extra.map Prod.fst).Nodup → (k, v) ∈ extra →
        db.signinPayload vars k = some v) ∧
      (∀ k, k ∉ extra.map Prod.fst →
        db.signinPayload vars k = db.signinPayload { vars with Vars := none } k)) ∧
    (∀ (svars : SignupVars) (k : String),
      db.signupPayload svars k =
        db.signinPayload ⟨svars.NS, svars.DB, svars.AC, svars.SC, svars.Vars, svars.User, svars.Pass⟩ k) ∧
    (∀ u p k, db.signinPayload ⟨none, none, none, none, none, some u, some p⟩ k ≠ none ↔
      (k = "user" ∨ k = "pass")) := by
  obtain ⟨NS, DB, AC, SC, V, U, P⟩ := vars
  refine ⟨?_, ?_, ?_, ?_⟩
  · rintro rfl
    obtain ⟨e1, e2, e3, e4, e5, e6, e7⟩ := signinPayload_base_eval db NS DB AC SC U P
    refine ⟨e1, e2, e3, e4, e5, e6, ?_, ?_⟩
    · rintro ⟨hac, hsc⟩
      rw [e5] at hac
      rw [e6] at hsc
      by_cases hv : db.Version = ">= 2.x"
      · rw [if_neg (by rw [hv]; decide)] at hsc
        exact hsc rfl
      · rw [if_neg hv] at hac
        exact hac rfl
    · intro k hk
      simp only [List.mem_cons, List.not_mem_nil, or_false] at hk
      push_neg at hk
      obtain ⟨k1, k2, k3, k4, k5, k6⟩ := hk
      exact e7 k k1 k2 k3 k4 k5 k6
  · rintro extra rfl
    have hfold : Surreal.signinPayload db ⟨NS, DB, AC, SC, some extra, U, P⟩ =
        extra.foldl (fun (p : Payload) kv => p.set kv.1 kv.2)
          (Surreal.signinPayload db ⟨NS, DB, AC, SC, none, U, P⟩) := rfl
    constructor
    · intro k v hnd hm
      rw [hfold]
      exact foldl_set_mem extra _ hnd k v hm
    · intro k hk
      rw [hfold]
      exact foldl_set_not_mem extra _ k hk
  · intro svars k
    obtain ⟨sNS, sDB, sAC, sSC, sV, sU, sP⟩ := svars
    rfl
  · intro u p k
    have hup : Surreal.signinPayload db ⟨none, none, none, none, none, some u, some p⟩ =
        (Payload.empty.set "user" (GoVal.str u)).set "pass" (GoVal.str p) := by
      unfold Surreal.signinPayload
      simp [optStrSet]
    rw [hup]
    simp only [Payload.set, Payload.empty]
    split_ifs <;> simp_all

/-- Witness for C4: a concrete current-protocol client and credentials — the
named fields land in the payload, the merged extra variable overwrites the
`pass` key, and the user/pass-only payload holds exactly those two keys. -/
theorem signin_payload_assembly_witness :
    Surreal.signinPayload ⟨"u", ">= 2.x", "n", "d", none⟩
      ⟨none, none, none, none, some [("pass", GoVal.str "override")], some "root", some "pw"⟩
      "pass" = some (GoVal.str "override") ∧
    Surreal.signinPayload ⟨"u", ">= 2.x", "n", "d", none⟩
      ⟨none, none, none, none, some [("pass", GoVal.str "override")], some "root", some "pw"⟩
      "user" = some (GoVal.str "root") ∧
    Surreal.signinPayload ⟨"u", ">= 2.x", "n", "d", none⟩
      ⟨none, none, none, none, none, some "root", some "pw"⟩ "ns" = none :=
  ⟨((signin_payload_assembly ⟨"u", ">= 2.x", "n", "d", none⟩
      ⟨none, none, none, none, some [("pass", GoVal.str "override")], some "root", some "pw"⟩).2.1
      [("pass", GoVal.str "override")] rfl).1 "pass" (GoVal.str "override")
      (by decide) (by decide),
   by
    have h := ((signin_payload_assembly ⟨"u", ">= 2.x", "n", "d", none⟩
      ⟨none, none, none, none, some [("pass", GoVal.str "override")], some "root", some "pw"⟩).2.1
      [("pass", GoVal.str "override")] rfl).2 "user" (by decide)
    rw [h]
    rfl,
   by
    have h := ((signin_payload_assembly ⟨"u", ">= 2.x", "n", "d", none⟩
      ⟨none, none, none, none, none, some "root", some "pw"⟩).1 rfl).1
    rw [h]
    rfl⟩

theorem nodup_keys_unique {α : Type} {l : List (String × α)}
    (h : (l.map Prod.fst).Nodup) {k : String} {a b : α}
    (ha : (k, a) ∈ l) (hb : (k, b) ∈ l) : a = b := by
  induction l with
  | nil => cases ha
  | cons hd tl ih =>
    simp only [List.map_cons, List.nodup_cons] at h
    rcases List.mem_cons.mp ha with heqa | ha' <;>
      rcases List.mem_cons.mp hb with heqb | hb'
    · rw [← heqa] at heqb
      exact (Prod.mk.injEq _ _ _ _ ▸ heqb.symm).2
    · exfalso
      apply h.1
      have hmem : (k, b).1 ∈ tl.map Prod.fst := List.mem_map_of_mem Prod.fst hb'
      rw [← heqa]
      exact hmem
    · exfalso
      apply h.1
      have hmem : (k, a).1 ∈ tl.map Prod.fst := List.mem_map_of_mem Prod.fst ha'
      rw [← heqb]
      exact hmem
    · exact ih h.2 ha' hb'

theorem mergeSort_ne_nil {α : Type} (le : α → α → Bool) (l : List α) (h : l ≠ []) :
    l.mergeSort le ≠ [] := by
  intro hc
  apply h
  have hlen : (l.mergeSort le).length = l.length := List.length_mergeSort l
  rw [hc] at hlen
  exact List.length_eq_zero.mp hlen.symm

theorem encodePairs_ne_empty (p : String × String) (ps : List (String × String)) :
    encodePairs (p :: ps) ≠ "" := by
  intro h
  have hlen := congrArg String.length h
  have heq1 : ("=" : String).length = 1 := rfl
  have hamp1 : ("&" : String).length = 1 := rfl
  cases ps <;> simp [encodePairs, String.length_append, heq1, hamp1] at hlen

/-- C6: entries of the `vars` mapping passed to `Query` whose value is the
nil interface are excluded from the URL query variables; entries with
non-nil values appear as `key = stringified(value)`; and when every entry is
nil (or the mapping is empty) no query string is appended to `{URL}/sql` at
all, while a non-empty set of query variables is appended after `?`. -/
theorem query_vars_url (db : Surreal) (vars : List (String × GoVal))
    (hnd : (vars.map Prod.fst).Nodup) :
    (∀ k, (k, GoVal.null) ∈ vars → ∀ s, (k, s) ∉ queryPairs vars) ∧
    (∀ k v, (k, v) ∈ vars → v ≠ GoVal.null → (k, v.fmtV) ∈ queryPairs vars) ∧
    ((∀ kv ∈ vars, kv.2 = GoVal.null) → db.queryURL vars = db.URL ++ "/sql") ∧
    (queryPairs vars ≠ [] →
      db.queryURL vars = db.URL ++ "/sql" ++ "?" ++ encodeQueryVars vars) := by
  refine ⟨?_, ?_, ?_, ?_⟩
  · intro k hknull s hmem
    obtain ⟨⟨k', v'⟩, hm', hf⟩ := List.mem_filterMap.mp hmem
    by_cases hv' : v' = GoVal.null
    · simp [queryPairs, hv'] at hf
    · simp only [queryPairs, if_pos (by simpa using hv')] at hf
      injection hf with hf1
      injection hf1 with hk1 hs1
      subst hk1
      exact hv' (nodup_keys_unique hnd hm' hknull)
  · intro k v hm hv
    exact List.mem_filterMap.mpr ⟨(k, v), hm, by simp [hv]⟩
  · intro hall
    have hqp : queryPairs vars = [] := by
      apply List.filterMap_eq_nil_iff.mpr
      intro kv hkv
      simp [hall kv hkv]
    simp [Surreal.queryURL, encodeQueryVars, hqp, List.mergeSort_nil, encodePairs]
  · intro hne
    have hsorted := mergeSort_ne_nil (fun a b => a.1 ≤ b.1) (queryPairs vars) hne
    have henc : encodeQueryVars vars ≠ "" := by
      unfold encodeQueryVars
      rcases hl : (queryPairs vars).mergeSort (fun a b => a.1 ≤ b.1) with _ | ⟨p, ps⟩
      · exact absurd hl hsorted
      · exact encodePairs_ne_empty p ps
    simp only [Surreal.queryURL, if_pos henc]

/-- Witness for C6: a non-nil integer entry appears stringified in the query
pairs, while a mapping holding only a nil entry leaves the URL bare. -/
theorem query_vars_url_witness :
    ("a", (GoVal.int 2).fmtV) ∈ queryPairs [("a", GoVal.int 2), ("b", GoVal.null)] ∧
    Surreal.queryURL ⟨"http://localhost:8000", ">= 2.x", "t", "t", none⟩ [("b", GoVal.null)] =
      "http://localhost:8000" ++ "/sql" :=
  ⟨(query_vars_url ⟨"http://localhost:8000", ">= 2.x", "t", "t", none⟩
      [("a", GoVal.int 2), ("b", GoVal.null)] (by decide)).2.1 "a" (GoVal.int 2)
      (by decide) (by decide),
   (query_vars_url ⟨"http://localhost:8000", ">= 2.x", "t", "t", none⟩
      [("b", GoVal.null)] (by decide)).2.2.1 (by decide)⟩

end GoSurreal
